import Mathlib

/-!
Verification development for the `bluehood` Bluetooth scanner
(`bluehood/scanner.py`).  The Python code is shallowly embedded: pure
helpers become Lean functions, stateful methods become explicit
state-passing functions, and every external effect (subprocess calls,
the BLE discovery call, HTTP requests, the event-loop clock) is fed in
through explicit outcome/oracle values and reported back through an
explicit event trace.
-/

namespace Bluehood

/-- Python truthiness of an `Optional[str]` value: `None` and the empty
string are falsy, every other string is truthy. -/
def truthyOpt : Option String → Bool
  | none => false
  | some s => !s.isEmpty

/-- A hexadecimal digit (either case), as accepted by `int(s, 16)` and by
the character classes of the `hcitool` output regex. -/
def isHexDigitChar (c : Char) : Bool :=
  ('0' ≤ c && c ≤ '9') || ('a' ≤ c && c ≤ 'f') || ('A' ≤ c && c ≤ 'F')

/-- Numeric value of one hexadecimal digit. -/
def hexDigitVal (c : Char) : Nat :=
  if '0' ≤ c && c ≤ '9' then c.toNat - '0'.toNat
  else if 'a' ≤ c && c ≤ 'f' then c.toNat - 'a'.toNat + 10
  else if 'A' ≤ c && c ≤ 'F' then c.toNat - 'A'.toNat + 10
  else 0

/-- Value of a list of hexadecimal digits, most significant first. -/
def hexVal (cs : List Char) : Nat :=
  cs.foldl (fun acc c => 16 * acc + hexDigitVal c) 0

/-- Model of Python `int(s, 16)` restricted to plain hexadecimal strings
(the only shape the scanner ever feeds it): succeeds exactly when the
string is non-empty and all characters are hexadecimal digits, else the
`ValueError` path is taken (`none`). -/
def parseHexDigits : List Char → Option Nat
  | [] => none
  | cs => if cs.all isHexDigitChar then some (hexVal cs) else none

/-- Python `\s` character class (ASCII range), which is also the set of
characters stripped by `str.strip()` with no argument. -/
def isPySpace (c : Char) : Bool :=
  c = ' ' || c = '\t' || c = '\n' || c = '\r' ||
    c = Char.ofNat 11 || c = Char.ofNat 12

/-- Model of Python `str.strip()`: drops whitespace from both ends. -/
def pyStrip (cs : List Char) : List Char :=
  ((cs.dropWhile isPySpace).reverse.dropWhile isPySpace).reverse

/-- Model of Python `str.upper()` on the ASCII range (the only range the
scanner feeds it: hex digits and colons). -/
def pyUpper (s : String) : String :=
  String.mk (s.data.map Char.toUpper)

/-- Model of Python `str.split(sep)` for a one-character separator:
splits at every occurrence, keeping empty pieces, and always returns at
least one piece. -/
def pySplit (sep : Char) : List Char → List (List Char)
  | [] => [[]]
  | c :: rest =>
    match pySplit sep rest with
    | [] => [[]]
    | p :: ps => if c = sep then [] :: p :: ps else (c :: p) :: ps

/-- Modelled from the spec: `is_macos_uuid` lives in
`bluehood/classifier.py`, which is not among the provided sources.  The
spec describes UUID-form addresses as the opaque identifiers one
platform family reports in place of a real hardware address: the
standard 36-character UUID shape, five dash-separated groups of
hexadecimal digits of lengths 8-4-4-4-12. -/
def is_macos_uuid (s : String) : Bool :=
  let parts := pySplit '-' s.data
  (parts.map List.length) = [8, 4, 4, 4, 12] &&
    parts.all (fun p => p.all isHexDigitChar)

/-- `BluetoothScanner._is_randomized_mac`: after excluding UUID-form
addresses, parse the piece of the address before the first colon as a
hexadecimal integer and test its bit 1 (the locally-administered bit);
a parse failure returns `false`. -/
def _is_randomized_mac (mac : String) : Bool :=
  if is_macos_uuid mac then false
  else
    match parseHexDigits ((pySplit ':' mac.data).headD []) with
    | some firstByte => (firstByte &&& 0x02) != 0
    | none => false

/-- Spec-side notion of a colon-hex address: six two-hex-digit octets
separated by colons, the canonical hardware-address form of the data
model. -/
def isColonHexMac (s : String) : Bool :=
  let parts := pySplit ':' s.data
  parts.length = 6 &&
    parts.all (fun p => p.length = 2 && p.all isHexDigitChar)

/-- Spec-side first octet of a colon-hex address: the value of the hex
group before the first colon. -/
def specFirstOctet (s : String) : Nat :=
  hexVal ((pySplit ':' s.data).headD [])

/-! ## Class-of-device decoding (`parse_device_class`) -/

/-- `BT_CLASS_MAJOR.get m`: the major-class table of the scanner. -/
def BT_CLASS_MAJOR : Nat → Option String
  | 0x01 => some "computer"
  | 0x02 => some "phone"
  | 0x03 => some "network"
  | 0x04 => some "audio"
  | 0x05 => some "peripheral"
  | 0x06 => some "imaging"
  | 0x07 => some "wearable"
  | 0x08 => some "toy"
  | 0x09 => some "health"
  | _ => none

/-- `BT_CLASS_MINOR_AUDIO.get m`. -/
def BT_CLASS_MINOR_AUDIO : Nat → Option String
  | 0x01 => some "headset"
  | 0x02 => some "handsfree"
  | 0x04 => some "microphone"
  | 0x05 => some "speaker"
  | 0x06 => some "headphones"
  | 0x07 => some "portable_audio"
  | 0x08 => some "car_audio"
  | _ => none

/-- `BT_CLASS_MINOR_PHONE.get m`. -/
def BT_CLASS_MINOR_PHONE : Nat → Option String
  | 0x01 => some "cellular"
  | 0x02 => some "cordless"
  | 0x03 => some "smartphone"
  | _ => none

/-- `parse_device_class`: major class from bits 8–12, minor class from
bits 2–7, the latter only consulted under major audio (4) or phone (2). -/
def parse_device_class : Option Nat → String × Option String
  | none => ("unknown", none)
  | some device_class =>
    let major := (device_class >>> 8) &&& 0x1F
    let minor := (device_class >>> 2) &&& 0x3F
    let major_type := (BT_CLASS_MAJOR major).getD "unknown"
    let minor_type :=
      if major = 0x04 then BT_CLASS_MINOR_AUDIO minor
      else if major = 0x02 then BT_CLASS_MINOR_PHONE minor
      else none
    (major_type, minor_type)

/-- The spec's decoding rule, written from its words: the major category
is the 5-bit field at bit offset 8 of the 24-bit value (extracted here
arithmetically, `(c / 2^8) % 2^5`), mapped through the spec's major
table with "unknown" as default; the minor category is the 6-bit field
at bit offset 2, defined only under major audio or phone through the
corresponding spec table. -/
def specClassDecode (c : Nat) : String × Option String :=
  let major := (c / 2 ^ 8) % 2 ^ 5
  let minor := (c / 2 ^ 2) % 2 ^ 6
  let majorName :=
    if major = 1 then "computer"
    else if major = 2 then "phone"
    else if major = 3 then "network"
    else if major = 4 then "audio"
    else if major = 5 then "peripheral"
    else if major = 6 then "imaging"
    else if major = 7 then "wearable"
    else if major = 8 then "toy"
    else if major = 9 then "health"
    else "unknown"
  let minorName :=
    if major = 4 then
      if minor = 1 then some "headset"
      else if minor = 2 then some "handsfree"
      else if minor = 4 then some "microphone"
      else if minor = 5 then some "speaker"
      else if minor = 6 then some "headphones"
      else if minor = 7 then some "portable_audio"
      else if minor = 8 then some "car_audio"
      else none
    else if major = 2 then
      if minor = 1 then some "cellular"
      else if minor = 2 then some "cordless"
      else if minor = 3 then some "smartphone"
      else none
    else none
  (majorName, minorName)

/-! ## Vendor resolution (`_get_vendor`, `_get_vendor_online`) -/

/-- The URL constant `MACVENDORS_API_URL`. -/
def MACVENDORS_API_URL : String := "https://api.macvendors.com/"

/-- Externally observable actions of the embedded code, collected into a
trace: a local vendor-database access, an issued (or attempted) HTTP
request with its full URL, a throttle sleep, the two recovery subprocess
invocations, and the BLE discovery call with its hard deadline. -/
inductive Event
  | dbAccess (mac : String)
  | netCall (url : String)
  | sleepFor (d : ℚ)
  | stopDiscoveryCall
  | resetAdapterCall
  | discoverCall (deadline : ℚ)
deriving Repr, DecidableEq

/-- Outcome of the `aiohttp` GET issued by `_get_vendor_online`: either
an HTTP response with a status and a body text, or an
`asyncio.TimeoutError`, or any other transport exception. -/
inductive HttpOutcome
  | resp (status : Nat) (body : String)
  | timeoutErr
  | otherErr
deriving Repr, DecidableEq

/-- Association-list lookup, modelling Python `dict` membership plus
indexing. -/
def lookupAssoc (l : List (String × Option String)) (k : String) :
    Option (Option String) :=
  match l with
  | [] => none
  | (k0, v0) :: rest => if k0 = k then some v0 else lookupAssoc rest k

/-- Association-list update, modelling Python `dict.__setitem__`:
replaces in place if the key is present, appends otherwise. -/
def setAssoc (l : List (String × Option String)) (k : String)
    (v : Option String) : List (String × Option String) :=
  match l with
  | [] => [(k, v)]
  | (k0, v0) :: rest =>
    if k0 = k then (k0, v) :: rest else (k0, v0) :: setAssoc rest k v

/-- The resolver's mutable fields on `BluetoothScanner`:
`_vendor_cache`, `_vendors_updated`, `_mac_lookup` (tracked as whether
it has been initialised), `_last_api_call` (unset before the first
completed online request). -/
structure ResolverState where
  vendor_cache : List (String × Option String) := []
  vendors_updated : Bool := false
  mac_lookup_init : Bool := false
  last_api_call : Option ℚ := none
deriving Repr, DecidableEq

/-- Result of one `_get_vendor_online` call: the returned vendor, the
updated state, the trace, and the event-loop time when the call
finishes. -/
structure OnlineResult where
  vendor : Option String
  st : ResolverState
  events : List Event
  endTime : ℚ
deriving Repr, DecidableEq

/-- The throttle sleep performed at the top of `_get_vendor_online`:
when less than one second has elapsed since `_last_api_call`, the
remainder of that second; zero otherwise (and zero when no online call
has completed yet). -/
def onlineSleep (st : ResolverState) (now : ℚ) : ℚ :=
  match st.last_api_call with
  | some t => if now - t < 1 then 1 - (now - t) else 0
  | none => 0

/-- The sleep events emitted by the throttle of `_get_vendor_online`. -/
def onlineSleepEvents (st : ResolverState) (now : ℚ) : List Event :=
  match st.last_api_call with
  | some t => if now - t < 1 then [Event.sleepFor (1 - (now - t))] else []
  | none => []

/-- `BluetoothScanner._get_vendor_online`.  `now` is the event-loop
clock when the call starts, `netDelay` the (nonnegative) time between
issuing the request and its outcome.  The OUI is `mac[:8]`.  If less
than one second has elapsed since `_last_api_call`, the call first
sleeps the remainder.  `_last_api_call` is set to the current time as
soon as a response arrives, before status dispatch; exception paths
leave it unchanged.  Status 200 returns the stripped body when the
body is non-empty; 404, 429, any other status, a timeout or any other
transport error all return `none`. -/
def _get_vendor_online (st : ResolverState) (mac : String)
    (now netDelay : ℚ) (http : HttpOutcome) : OnlineResult :=
  let oui := String.mk (mac.data.take 8)
  let sleepAmt : ℚ := onlineSleep st now
  let sleepEvents : List Event := onlineSleepEvents st now
  let reqTime := now + sleepAmt
  let url := MACVENDORS_API_URL ++ oui
  let respTime := reqTime + netDelay
  match http with
  | HttpOutcome.resp status body =>
    let st1 := { st with last_api_call := some respTime }
    let v : Option String :=
      if status = 200 then
        (if body.data.isEmpty then none else some (String.mk (pyStrip body.data)))
      else none
    { vendor := v, st := st1,
      events := sleepEvents ++ [Event.netCall url], endTime := respTime }
  | HttpOutcome.timeoutErr =>
    { vendor := none, st := st,
      events := sleepEvents ++ [Event.netCall url], endTime := respTime }
  | HttpOutcome.otherErr =>
    { vendor := none, st := st,
      events := sleepEvents ++ [Event.netCall url], endTime := respTime }

/-- External inputs consumed by one `_get_vendor` call: whether the
`mac_vendor_lookup` package is importable (`HAS_MAC_LOOKUP`), the
outcome of the local-database `lookup` call (`Except.error` models a
raised exception), and the clock/network inputs of the online
fallback. -/
structure VendorEnv where
  hasMacLookup : Bool
  localLookup : Except Unit (Option String)
  now : ℚ
  netDelay : ℚ
  http : HttpOutcome
deriving Repr

/-- The tail of `_get_vendor`: `if vendor: self._vendor_cache[mac] =
vendor` followed by `return vendor` — a truthy result, and only a
truthy one, is written to the cache. -/
def cacheIfTruthy (mac : String) (vendor : Option String)
    (st2 : ResolverState) (ev2 : List Event) :
    Option String × ResolverState × List Event :=
  if truthyOpt vendor then
    (vendor,
     { st2 with vendor_cache := setAssoc st2.vendor_cache mac vendor },
     ev2)
  else (vendor, st2, ev2)

/-- The cache-miss path of `_get_vendor`: the local database is tried
when `HAS_MAC_LOOKUP` (a raised lookup exception falls through with
`vendor` still `None`, the db-refresh/init flags set either way), then
the online fallback runs exactly when the local stage left `vendor`
as `None`. -/
def getVendorMiss (st : ResolverState) (mac : String) (env : VendorEnv) :
    Option String × ResolverState × List Event :=
  let st1 :=
    if env.hasMacLookup then
      { st with vendors_updated := true, mac_lookup_init := true }
    else st
  let vendor0 : Option String :=
    if env.hasMacLookup then
      match env.localLookup with
      | Except.ok v => v
      | Except.error _ => none
    else none
  let ev1 : List Event :=
    if env.hasMacLookup then [Event.dbAccess mac] else []
  match vendor0 with
  | none =>
    let r := _get_vendor_online st1 mac env.now env.netDelay env.http
    cacheIfTruthy mac r.vendor r.st (ev1 ++ r.events)
  | some v => cacheIfTruthy mac (some v) st1 ev1

/-- `BluetoothScanner._get_vendor`.  UUID-form and randomized addresses
return `none` immediately with no effect.  A cache entry is consulted
only when present and not `None`.  Otherwise the miss path runs: local
database first (when available), then the online fallback on a `None`
local result, with a truthy result written back to the cache. -/
def _get_vendor (st : ResolverState) (mac : String) (env : VendorEnv) :
    Option String × ResolverState × List Event :=
  if is_macos_uuid mac then (none, st, [])
  else if _is_randomized_mac mac then (none, st, [])
  else
    match lookupAssoc st.vendor_cache mac with
    | some (some v) => (some v, st, [])
    | _ => getVendorMiss st mac env

/-- One step of a sequence of consecutive online lookups: the idle time
before the lookup starts, the address looked up, the network delay and
the HTTP outcome. -/
structure LookupStep where
  gap : ℚ
  mac : String
  netDelay : ℚ
  http : HttpOutcome
deriving Repr, DecidableEq

/-- Runs a sequence of `_get_vendor_online` calls back to back, each
starting `gap` after the previous one finished; returns the final
resolver state and the event-loop time when the last call finishes. -/
def runOnlineTrace (st : ResolverState) (now : ℚ) :
    List LookupStep → ResolverState × ℚ
  | [] => (st, now)
  | step :: rest =>
    let r := _get_vendor_online st step.mac (now + step.gap) step.netDelay step.http
    runOnlineTrace r.st r.endTime rest

/-! ## Recovery (`_try_stop_discovery`, `_reset_adapter`, `_recover_ble`) -/

/-- `ADAPTER_RESET_THRESHOLD`. -/
def ADAPTER_RESET_THRESHOLD : Nat := 3

/-- Outcome of one awaited subprocess invocation: it completed within
its timeout (with an exit code and captured output), or spawning it
raised (e.g. `FileNotFoundError`), or the `asyncio.wait_for` timeout
expired. -/
inductive SubprocOutcome
  | completed (returncode : Int) (stdout : String) (stderr : String)
  | spawnFail
  | timeoutExpired
deriving Repr, DecidableEq

/-- `BluetoothScanner._try_stop_discovery`: runs
`bluetoothctl scan off` under a 5-second timeout and returns `True`
whenever `communicate()` completes in time — the exit code is never
inspected; any exception (spawn failure or timeout expiry) returns
`False`. -/
def _try_stop_discovery (o : SubprocOutcome) : Bool × List Event :=
  match o with
  | SubprocOutcome.completed _ _ _ => (true, [Event.stopDiscoveryCall])
  | SubprocOutcome.spawnFail => (false, [Event.stopDiscoveryCall])
  | SubprocOutcome.timeoutExpired => (false, [Event.stopDiscoveryCall])

/-- `BluetoothScanner._reset_adapter`: runs `hciconfig <adapter> reset`
under a 10-second timeout; succeeds only on exit code 0. -/
def _reset_adapter (o : SubprocOutcome) : Bool × List Event :=
  match o with
  | SubprocOutcome.completed rc _ _ => (rc = 0, [Event.resetAdapterCall])
  | SubprocOutcome.spawnFail => (false, [Event.resetAdapterCall])
  | SubprocOutcome.timeoutExpired => (false, [Event.resetAdapterCall])

/-- `BluetoothScanner._recover_ble`: a no-op below the threshold;
otherwise the soft clear is attempted first, and the hard reset is
issued only when the soft clear failed.  The failure counter is never
modified here. -/
def _recover_ble (failures : Nat) (stopO resetO : SubprocOutcome) :
    List Event :=
  if failures < ADAPTER_RESET_THRESHOLD then []
  else
    let (ok, ev1) := _try_stop_discovery stopO
    if ok then ev1
    else ev1 ++ (_reset_adapter resetO).2

/-! ## BLE scanning (`scan_ble`) -/

/-- The scanner's mutable state: the resolver fields plus
`_consecutive_ble_failures`. -/
structure ScannerState where
  resolver : ResolverState := {}
  consecutive_ble_failures : Nat := 0
deriving Repr, DecidableEq

/-- A `ScannedDevice` record. -/
structure ScannedDevice where
  mac : String
  name : Option String
  rssi : Int
  vendor : Option String := none
  service_uuids : List String := []
  bt_type : String := "ble"
  device_class : Option Nat := none
deriving Repr, DecidableEq

/-- One `(BLEDevice, AdvertisementData)` pair as yielded by
`BleakScanner.discover(return_adv=True)`. -/
structure BleFound where
  address : String
  name : Option String
  local_name : Option String
  rssi : Int
  service_uuids : List String
deriving Repr, DecidableEq

/-- Python `a or b` on two `Optional[str]` values: the left operand when
it is truthy, otherwise the right operand. -/
def pyOrOpt (a b : Option String) : Option String :=
  if truthyOpt a then a else b

/-- Outcome of the guarded discovery call
`asyncio.wait_for(BleakScanner.discover(...), timeout=duration+10)`:
a device map, an `asyncio.TimeoutError` from the hard deadline, or any
other exception. -/
inductive BleDiscoverOutcome
  | success (devs : List BleFound)
  | timeoutErr
  | exn (msg : String)
deriving Repr

/-- External inputs of one `scan_ble` call: the discovery outcome, the
outcomes of the two recovery subprocesses (used only when recovery
runs), and the vendor-lookup inputs for the i-th discovered device. -/
structure BleEnv where
  outcome : BleDiscoverOutcome
  stopO : SubprocOutcome
  resetO : SubprocOutcome
  vendorEnvs : Nat → VendorEnv

/-- The per-device loop of `scan_ble`: resolves each device's vendor
(threading the resolver state) and builds the `ScannedDevice` list in
discovery order. -/
def processBleDevices (rst : ResolverState) (envs : Nat → VendorEnv)
    (i : Nat) : List BleFound → List ScannedDevice × ResolverState × List Event
  | [] => ([], rst, [])
  | d :: rest =>
    let (v, rst1, ev1) := _get_vendor rst d.address (envs i)
    let dev : ScannedDevice :=
      { mac := d.address
        name := pyOrOpt d.name d.local_name
        rssi := d.rssi
        vendor := v
        service_uuids := d.service_uuids
        bt_type := "ble" }
    let (restDevs, rst2, ev2) := processBleDevices rst1 envs (i + 1) rest
    (dev :: restDevs, rst2, ev1 ++ ev2)

/-- Result of one `scan_ble` call. -/
structure BleScanResult where
  devices : List ScannedDevice
  st : ScannerState
  events : List Event
deriving Repr

/-- `BluetoothScanner.scan_ble`: recovery is attempted first when the
failure counter has reached the threshold; the discovery call runs
under a hard deadline of `duration + 10`; success resets the failure
counter to zero after building the result list, while a deadline expiry
or any other exception from the discovery call increments it and leaves
the (empty) device list as the return value.  Never raises. -/
def scan_ble (st : ScannerState) (duration : ℚ) (env : BleEnv) :
    BleScanResult :=
  let recEvents :=
    if st.consecutive_ble_failures ≥ ADAPTER_RESET_THRESHOLD then
      _recover_ble st.consecutive_ble_failures env.stopO env.resetO
    else []
  match env.outcome with
  | BleDiscoverOutcome.success devs =>
    let r := processBleDevices st.resolver env.vendorEnvs 0 devs
    { devices := r.1
      st := { resolver := r.2.1, consecutive_ble_failures := 0 }
      events := recEvents ++ [Event.discoverCall (duration + 10)] ++ r.2.2 }
  | BleDiscoverOutcome.timeoutErr =>
    { devices := []
      st := { st with consecutive_ble_failures := st.consecutive_ble_failures + 1 }
      events := recEvents ++ [Event.discoverCall (duration + 10)] }
  | BleDiscoverOutcome.exn _ =>
    { devices := []
      st := { st with consecutive_ble_failures := st.consecutive_ble_failures + 1 }
      events := recEvents ++ [Event.discoverCall (duration + 10)] }

/-! ## Classic inquiry (`scan_classic`) -/

/-- A character of the class `[0-9A-Fa-f:]`. -/
def isHexColonChar (c : Char) : Bool := isHexDigitChar c || c = ':'

/-- Suffix match for `class:\s*0x([0-9A-Fa-f]+)`: the literal `class:`,
then a maximal whitespace run, then the literal `0x`, then a non-empty
maximal run of hex digits (the capture). -/
def matchClassSuffix (cs : List Char) : Option (List Char) :=
  if cs.take 6 = "class:".data then
    let r := (cs.drop 6).dropWhile isPySpace
    if r.take 2 = "0x".data then
      let hex := (r.drop 2).takeWhile isHexDigitChar
      if hex.isEmpty then none else some hex
    else none
  else none

/-- Backtracking of the greedy `.*` in the regex: the rightmost position
whose suffix matches `class:\s*0x([0-9A-Fa-f]+)`. -/
def lastClassMatch : List Char → Option (List Char)
  | [] => none
  | c :: rest =>
    match lastClassMatch rest with
    | some h => some h
    | none => matchClassSuffix (c :: rest)

/-- Match of the full pattern
`([0-9A-Fa-f:]{17})\s+clock offset:.*class:\s*0x([0-9A-Fa-f]+)`
anchored at the head of `cs`: 17 characters of `[0-9A-Fa-f:]`, at least
one whitespace character (the run must end right before the literal),
the literal `clock offset:`, then the backtracked class suffix. -/
def matchInqAt (cs : List Char) : Option (String × Nat) :=
  let macPart := cs.take 17
  if macPart.length = 17 && macPart.all isHexColonChar then
    let rest := cs.drop 17
    let ws := rest.takeWhile isPySpace
    if ws.isEmpty then none
    else
      let after := rest.drop ws.length
      if after.take 13 = "clock offset:".data then
        match lastClassMatch (after.drop 13) with
        | some hex => some (String.mk macPart, hexVal hex)
        | none => none
      else none
  else none

/-- `re.search` over the line: the match starting at the leftmost
possible position. -/
def findInqMatch : List Char → Option (String × Nat)
  | [] => none
  | c :: rest =>
    match matchInqAt (c :: rest) with
    | some r => some r
    | none => findInqMatch rest

/-- `BluetoothScanner._get_classic_device_name`: an `hcitool name`
subprocess whose stripped stdout is the name when completion succeeded
and the result is non-empty; every failure (spawn error, timeout)
yields `None`.  The exit code is not inspected. -/
def _get_classic_device_name (o : SubprocOutcome) : Option String :=
  match o with
  | SubprocOutcome.completed _ stdout _ =>
    let n := pyStrip stdout.data
    if n.isEmpty then none else some (String.mk n)
  | SubprocOutcome.spawnFail => none
  | SubprocOutcome.timeoutExpired => none

/-- External inputs of one `scan_classic` call: the `hcitool inq`
subprocess outcome, and per matched device (indexed in output order)
the name-resolution subprocess outcome and the vendor-lookup inputs. -/
structure ClassicEnv where
  proc : SubprocOutcome
  nameO : Nat → SubprocOutcome
  vendorEnvs : Nat → VendorEnv

/-- The per-line loop of `scan_classic`: skips blank lines, lines
starting with `Inquiring` and lines the regex does not match; for each
match, uppercases the address, resolves the name and the vendor, and
appends a classic `ScannedDevice` with the placeholder signal strength
`-60` and the parsed 24-bit class value. -/
def processClassicLines (rst : ResolverState) (env : ClassicEnv)
    (i : Nat) : List (List Char) → List ScannedDevice × ResolverState × List Event
  | [] => ([], rst, [])
  | line :: rest =>
    if (pyStrip line).isEmpty || "Inquiring".data.isPrefixOf line then
      processClassicLines rst env i rest
    else
      match findInqMatch line with
      | none => processClassicLines rst env i rest
      | some (macRaw, cls) =>
        let mac := pyUpper macRaw
        let name := _get_classic_device_name (env.nameO i)
        let (v, rst1, ev1) := _get_vendor rst mac (env.vendorEnvs i)
        let dev : ScannedDevice :=
          { mac := mac
            name := name
            rssi := -60
            vendor := v
            service_uuids := []
            bt_type := "classic"
            device_class := some cls }
        let (restDevs, rst2, ev2) := processClassicLines rst1 env (i + 1) rest
        (dev :: restDevs, rst2, ev1 ++ ev2)

/-- `BluetoothScanner.scan_classic`: a spawn failure
(`FileNotFoundError`), a subprocess timeout or a non-zero exit code all
yield an empty device list without raising; on exit code 0 the stripped
stdout is split into lines and parsed.  The failure counter is never
touched. -/
def scan_classic (st : ScannerState) (env : ClassicEnv) :
    List ScannedDevice × ScannerState × List Event :=
  match env.proc with
  | SubprocOutcome.spawnFail => ([], st, [])
  | SubprocOutcome.timeoutExpired => ([], st, [])
  | SubprocOutcome.completed rc stdout _ =>
    if rc ≠ 0 then ([], st, [])
    else
      let lines := pySplit '\n' (pyStrip stdout.data)
      let r := processClassicLines st.resolver env 0 lines
      (r.1, { st with resolver := r.2.1 }, r.2.2)

/-! ## Merge and `scan` -/

/-- The classic half of the merge loop in `scan`: a classic device is
kept exactly when its uppercased address is not in the set of uppercased
BLE addresses; the set is not extended by classic devices. -/
def mergeClassicLoop (seen : List String) :
    List ScannedDevice → List ScannedDevice
  | [] => []
  | d :: rest =>
    if seen.contains (pyUpper d.mac) then mergeClassicLoop seen rest
    else d :: mergeClassicLoop seen rest

/-- The merge step of `BluetoothScanner.scan`: all BLE devices in
discovery order (their uppercased addresses forming the seen set),
followed by the classic devices whose addresses were not seen. -/
def scanMerge (ble classic : List ScannedDevice) : List ScannedDevice :=
  let seen := ble.map (fun d => pyUpper d.mac)
  ble ++ mergeClassicLoop seen classic

/-- External inputs of one `scan` call. -/
structure ScanEnv where
  ble : BleEnv
  classic : ClassicEnv

/-- `BluetoothScanner.scan`: runs `scan_ble` then `scan_classic`
sequentially (each already total — every transport error is caught
inside the respective method) and merges the two result lists. -/
def scan (st : ScannerState) (duration : ℚ) (env : ScanEnv) :
    List ScannedDevice × ScannerState × List Event :=
  let r1 := scan_ble st duration env.ble
  let r2 := scan_classic r1.st env.classic
  (scanMerge r1.devices r2.1, r2.2.1, r1.events ++ r2.2.2)

/-! ## Helper lemmas -/

theorem mergeClassicLoop_eq_filter (seen : List String) (l : List ScannedDevice) :
    mergeClassicLoop seen l =
      l.filter (fun d => !(seen.contains (pyUpper d.mac))) := by
  induction l with
  | nil => rfl
  | cons d rest ih =>
    simp only [mergeClassicLoop, List.filter_cons, ih]
    by_cases h : pyUpper d.mac ∈ seen
    · simp [h]
    · simp [h]

theorem processBleDevices_length (envs : Nat → VendorEnv) :
    ∀ (devs : List BleFound) (rst : ResolverState) (i : Nat),
      (processBleDevices rst envs i devs).1.length = devs.length := by
  intro devs
  induction devs with
  | nil => intro rst i; rfl
  | cons d rest ih =>
    intro rst i
    simp only [processBleDevices]
    simp [ih]

/-! ## C1: merge semantics -/

/-- C1: the merged output of one scan cycle is all BLE devices in
discovery order followed by exactly those classic devices whose
uppercased address differs from every BLE device's uppercased address,
in discovery order; hence every BLE device is retained, and on an
address collision the surviving entry is the BLE one (shown on the
spec's concrete example). -/
theorem c1_merge_dedup :
    (∀ (ble classic : List ScannedDevice),
      scanMerge ble classic =
        ble ++ classic.filter
          (fun d => !((ble.map (fun b => pyUpper b.mac)).contains (pyUpper d.mac))))
    ∧ (∀ (ble classic : List ScannedDevice), ∀ b ∈ ble, b ∈ scanMerge ble classic)
    ∧ (∀ (ble classic : List ScannedDevice), ∀ d ∈ classic,
        ((ble.map (fun b => pyUpper b.mac)).contains (pyUpper d.mac)) = false →
          d ∈ scanMerge ble classic)
    ∧ scanMerge
        [{ mac := "AA:AA:AA:AA:AA:AA", name := none, rssi := -40, bt_type := "ble" }]
        [{ mac := "AA:AA:AA:AA:AA:AA", name := none, rssi := -60, bt_type := "classic" },
         { mac := "BB:BB:BB:BB:BB:BB", name := none, rssi := -60, bt_type := "classic" }] =
        [{ mac := "AA:AA:AA:AA:AA:AA", name := none, rssi := -40, bt_type := "ble" },
         { mac := "BB:BB:BB:BB:BB:BB", name := none, rssi := -60, bt_type := "classic" }] := by
  refine ⟨?_, ?_, ?_, ?_⟩
  · intro ble classic
    simp only [scanMerge]
    rw [mergeClassicLoop_eq_filter]
  · intro ble classic b hb
    simp only [scanMerge]
    exact List.mem_append_left _ hb
  · intro ble classic d hd hmac
    simp only [scanMerge]
    rw [mergeClassicLoop_eq_filter]
    refine List.mem_append_right _ ?_
    refine List.mem_filter.2 ⟨hd, ?_⟩
    simp only [hmac]
    rfl
  · decide

/-- Witness for C1: the membership conjuncts applied on the spec's
concrete example. -/
theorem c1_merge_dedup_witness :
    ({ mac := "AA:AA:AA:AA:AA:AA", name := none, rssi := -40,
       bt_type := "ble" } : ScannedDevice) ∈
      scanMerge
        [{ mac := "AA:AA:AA:AA:AA:AA", name := none, rssi := -40, bt_type := "ble" }]
        [{ mac := "BB:BB:BB:BB:BB:BB", name := none, rssi := -60, bt_type := "classic" }] ∧
    ({ mac := "BB:BB:BB:BB:BB:BB", name := none, rssi := -60,
       bt_type := "classic" } : ScannedDevice) ∈
      scanMerge
        [{ mac := "AA:AA:AA:AA:AA:AA", name := none, rssi := -40, bt_type := "ble" }]
        [{ mac := "BB:BB:BB:BB:BB:BB", name := none, rssi := -60, bt_type := "classic" }] := by
  constructor
  · exact c1_merge_dedup.2.1 _ _ _ (by decide)
  · exact c1_merge_dedup.2.2.1 _ _ _ (by decide) (by decide)

/-! ## C5: class-of-device decoding -/

theorem classTables_agree :
    ∀ m < 32, ∀ n < 64,
      (((BT_CLASS_MAJOR m).getD "unknown",
        if m = 0x04 then BT_CLASS_MINOR_AUDIO n
        else if m = 0x02 then BT_CLASS_MINOR_PHONE n
        else none) : String × Option String) =
      specClassDecode (m * 2 ^ 8 + n * 2 ^ 2) := by
  decide

/-- C5: for every class-of-device value, the decoder extracts bits 8–12
as the major category and maps it through the spec's major table with
"unknown" default, and extracts bits 2–7 as the minor category, defined
only under major audio or phone through the spec's minor tables; in
particular `0x200404` decodes to major audio, minor headset. -/
theorem c5_class_decode :
    (∀ c : Nat, parse_device_class (some c) = specClassDecode c)
    ∧ parse_device_class (some 0x200404) = ("audio", some "headset") := by
  constructor
  · intro c
    have hM : (c >>> 8) &&& 0x1F = (c / 2 ^ 8) % 2 ^ 5 := by
      rw [Nat.shiftRight_eq_div_pow]
      have h31 : (0x1F : Nat) = 2 ^ 5 - 1 := rfl
      rw [h31, Nat.and_pow_two_sub_one_eq_mod]
    have hN : (c >>> 2) &&& 0x3F = (c / 2 ^ 2) % 2 ^ 6 := by
      rw [Nat.shiftRight_eq_div_pow]
      have h63 : (0x3F : Nat) = 2 ^ 6 - 1 := rfl
      rw [h63, Nat.and_pow_two_sub_one_eq_mod]
    have hMlt : (c / 2 ^ 8) % 2 ^ 5 < 32 := Nat.mod_lt _ (by norm_num)
    have hNlt : (c / 2 ^ 2) % 2 ^ 6 < 64 := Nat.mod_lt _ (by norm_num)
    have key := classTables_agree _ hMlt _ hNlt
    have hMaj : ((c / 2 ^ 8) % 2 ^ 5 * 2 ^ 8 + (c / 2 ^ 2) % 2 ^ 6 * 2 ^ 2) / 2 ^ 8 % 2 ^ 5 =
        (c / 2 ^ 8) % 2 ^ 5 := by omega
    have hMin : ((c / 2 ^ 8) % 2 ^ 5 * 2 ^ 8 + (c / 2 ^ 2) % 2 ^ 6 * 2 ^ 2) / 2 ^ 2 % 2 ^ 6 =
        (c / 2 ^ 2) % 2 ^ 6 := by omega
    calc parse_device_class (some c)
        = ((BT_CLASS_MAJOR ((c / 2 ^ 8) % 2 ^ 5)).getD "unknown",
            if (c / 2 ^ 8) % 2 ^ 5 = 0x04 then BT_CLASS_MINOR_AUDIO ((c / 2 ^ 2) % 2 ^ 6)
            else if (c / 2 ^ 8) % 2 ^ 5 = 0x02 then BT_CLASS_MINOR_PHONE ((c / 2 ^ 2) % 2 ^ 6)
            else none) := by
          simp only [parse_device_class, hM, hN]
      _ = specClassDecode ((c / 2 ^ 8) % 2 ^ 5 * 2 ^ 8 + (c / 2 ^ 2) % 2 ^ 6 * 2 ^ 2) := key
      _ = specClassDecode c := by
          simp only [specClassDecode, hMaj, hMin]
  · decide

/-! ## C10: soft-clear success criterion -/

/-- C10: the soft-clear stage reports success exactly when the
stop-discovery subprocess completes within its timeout, regardless of
its exit status, and reports failure exactly when spawning fails or the
timeout expires; whenever the subprocess completes, the recovery
procedure issues no adapter-reset call in that cycle. -/
theorem c10_soft_clear :
    ∀ (o : SubprocOutcome),
      ((_try_stop_discovery o).1 = true ↔
        ∃ rc out err, o = SubprocOutcome.completed rc out err)
      ∧ ((_try_stop_discovery o).1 = false ↔
          (o = SubprocOutcome.spawnFail ∨ o = SubprocOutcome.timeoutExpired))
      ∧ (∀ (failures : Nat) (rc : Int) (out err : String)
            (resetO : SubprocOutcome),
          Event.resetAdapterCall ∉
            _recover_ble failures (SubprocOutcome.completed rc out err) resetO) := by
  intro o
  refine ⟨?_, ?_, ?_⟩
  · cases o <;> simp [_try_stop_discovery]
  · cases o <;> simp [_try_stop_discovery]
  · intro failures rc out err resetO
    by_cases h : failures < ADAPTER_RESET_THRESHOLD
    · simp [_recover_ble, h]
    · simp [_recover_ble, h, _try_stop_discovery]

/-! ## C4: randomized addresses and vendor skip -/

/-- Inverse of `pySplit`: rejoins the pieces with the separator. -/
def joinWith (sep : Char) : List (List Char) → List Char
  | [] => []
  | [p] => p
  | p :: q :: rest => p ++ sep :: joinWith sep (q :: rest)

theorem pySplit_ne_nil (sep : Char) (cs : List Char) :
    pySplit sep cs ≠ [] := by
  cases cs with
  | nil => simp [pySplit]
  | cons c rest =>
    simp only [pySplit]
    cases h : pySplit sep rest with
    | nil => simp
    | cons p ps =>
      by_cases hc : c = sep <;> simp [hc]

theorem joinWith_pySplit (sep : Char) (cs : List Char) :
    joinWith sep (pySplit sep cs) = cs := by
  induction cs with
  | nil => rfl
  | cons c rest ih =>
    simp only [pySplit]
    cases h : pySplit sep rest with
    | nil => exact absurd h (pySplit_ne_nil sep rest)
    | cons p ps =>
      rw [h] at ih
      dsimp only
      by_cases hc : c = sep
      · rw [if_pos hc]
        show [] ++ sep :: joinWith sep (p :: ps) = c :: rest
        rw [ih, hc]
        rfl
      · rw [if_neg hc]
        cases ps with
        | nil =>
          show [c] ++ p = c :: rest
          simp only [joinWith] at ih
          rw [← ih]
          rfl
        | cons q ps2 =>
          show (c :: p) ++ sep :: joinWith sep (q :: ps2) = c :: rest
          simp only [joinWith] at ih
          rw [List.cons_append, ih]

theorem joinWith_length (sep : Char) (l : List (List Char)) :
    (joinWith sep l).length = (l.map List.length).sum + (l.length - 1) := by
  induction l with
  | nil => rfl
  | cons p t ih =>
    cases t with
    | nil => simp [joinWith]
    | cons q rest =>
      simp only [joinWith, List.length_append, List.length_cons,
        List.map_cons, List.sum_cons] at ih ⊢
      omega

theorem sum_map_len_two (l : List (List Char))
    (h : ∀ p ∈ l, p.length = 2) : (l.map List.length).sum = 2 * l.length := by
  induction l with
  | nil => rfl
  | cons p t ih =>
    simp only [List.map_cons, List.sum_cons, List.length_cons]
    rw [h p (List.mem_cons_self p t), ih (fun q hq => h q (List.mem_cons_of_mem p hq))]
    ring

theorem colonHex_data_length (a : String) (h : isColonHexMac a = true) :
    a.data.length = 17 := by
  simp only [isColonHexMac, Bool.and_eq_true, decide_eq_true_eq,
    List.all_eq_true] at h
  obtain ⟨hlen, hall⟩ := h
  have hj := joinWith_pySplit ':' a.data
  have hL := joinWith_length ':' (pySplit ':' a.data)
  rw [hj] at hL
  have hsum : ((pySplit ':' a.data).map List.length).sum =
      2 * (pySplit ':' a.data).length := by
    refine sum_map_len_two _ ?_
    intro p hp
    have := hall p hp
    simp only [Bool.and_eq_true, decide_eq_true_eq] at this
    exact this.1
  rw [hsum, hlen] at hL
  simpa using hL

theorem uuid_data_length (a : String) (h : is_macos_uuid a = true) :
    a.data.length = 36 := by
  simp only [is_macos_uuid, Bool.and_eq_true, decide_eq_true_eq] at h
  obtain ⟨hlen, _⟩ := h
  have hj := joinWith_pySplit '-' a.data
  have hL := joinWith_length '-' (pySplit '-' a.data)
  rw [hj] at hL
  have hcount : (pySplit '-' a.data).length = 5 := by
    have := congrArg List.length hlen
    simpa using this
  rw [hlen, hcount] at hL
  simpa using hL

theorem uuid_not_colonHex (a : String) (h : is_macos_uuid a = true) :
    isColonHexMac a = false := by
  by_contra hc
  have hc2 : isColonHexMac a = true := by
    cases hx : isColonHexMac a
    · exact absurd hx hc
    · rfl
  have h17 := colonHex_data_length a hc2
  have h36 := uuid_data_length a h
  omega

theorem colonHex_not_uuid (a : String) (h : isColonHexMac a = true) :
    is_macos_uuid a = false := by
  cases hx : is_macos_uuid a
  · rfl
  · exact absurd (uuid_not_colonHex a hx) (by simp [h])

theorem parseHexDigits_of_hex2 (p : List Char) (hlen : p.length = 2)
    (hhex : ∀ c ∈ p, isHexDigitChar c = true) :
    parseHexDigits p = some (hexVal p) := by
  rcases p with _ | ⟨c1, _ | ⟨c2, _ | ⟨c3, t⟩⟩⟩
  · simp at hlen
  · simp at hlen
  · have hall : ([c1, c2].all isHexDigitChar) = true := List.all_eq_true.mpr hhex
    simp only [parseHexDigits, hall, if_true]
  · simp only [List.length_cons] at hlen
    omega

theorem randomized_of_colonHex (a : String) (h : isColonHexMac a = true) :
    _is_randomized_mac a = ((specFirstOctet a &&& 0x02) != 0) := by
  have hu := colonHex_not_uuid a h
  simp only [isColonHexMac, Bool.and_eq_true, decide_eq_true_eq,
    List.all_eq_true] at h
  obtain ⟨hlen, hall⟩ := h
  cases hp : pySplit ':' a.data with
  | nil =>
    rw [hp] at hlen
    simp at hlen
  | cons p ps =>
    have hpmem : p ∈ pySplit ':' a.data := by rw [hp]; exact List.mem_cons_self p ps
    have hpspec := hall p hpmem
    simp only [Bool.and_eq_true, decide_eq_true_eq] at hpspec
    have hparse := parseHexDigits_of_hex2 p hpspec.1 hpspec.2
    simp only [_is_randomized_mac, hu, Bool.false_eq_true, if_false,
      specFirstOctet, hp, List.headD_cons, hparse]

/-- C4: over the address domain of the data model (colon-hex or
UUID-form), the randomized test returns true exactly when the address is
colon-hex and bit 1 of its first octet is set, and is always false on
UUID-form addresses; every address flagged randomized or UUID-form makes
`_get_vendor` return absent immediately, with the state untouched and no
network or database event. -/
theorem c4_randomized_skip :
    ∀ (a : String) (st : ResolverState) (env : VendorEnv),
      (is_macos_uuid a = true → _is_randomized_mac a = false)
      ∧ (isColonHexMac a = true ∨ is_macos_uuid a = true →
          (_is_randomized_mac a = true ↔
            isColonHexMac a = true ∧ (specFirstOctet a &&& 0x02) ≠ 0))
      ∧ (_is_randomized_mac a = true ∨ is_macos_uuid a = true →
          _get_vendor st a env = (none, st, [])) := by
  intro a st env
  have huuidRand : is_macos_uuid a = true → _is_randomized_mac a = false := by
    intro h
    simp [_is_randomized_mac, h]
  refine ⟨huuidRand, ?_, ?_⟩
  · rintro (hch | hu)
    · rw [randomized_of_colonHex a hch]
      constructor
      · intro hb
        refine ⟨hch, ?_⟩
        simpa using hb
      · intro ⟨_, hbit⟩
        simpa using hbit
    · rw [huuidRand hu]
      constructor
      · intro h
        exact absurd h (by simp)
      · intro ⟨hch, _⟩
        exact absurd (uuid_not_colonHex a hu) (by simp [hch])
  · rintro (hr | hu)
    · have hu2 : is_macos_uuid a = false := by
        cases hx : is_macos_uuid a
        · rfl
        · rw [huuidRand hx] at hr
          exact absurd hr (by simp)
      simp [_get_vendor, hu2, hr]
    · simp [_get_vendor, hu]

/-- Witness for C4 at the colon-hex address `06:AA:BB:CC:DD:EE` (first
octet `0x06`, bit 1 set). -/
theorem c4_randomized_skip_witness :
    _is_randomized_mac "06:AA:BB:CC:DD:EE" = true ∧
    _get_vendor {} "06:AA:BB:CC:DD:EE"
        ⟨true, Except.ok (some "V"), 0, 0, HttpOutcome.otherErr⟩ =
      (none, {}, []) := by
  have h := c4_randomized_skip "06:AA:BB:CC:DD:EE" {}
    ⟨true, Except.ok (some "V"), 0, 0, HttpOutcome.otherErr⟩
  have hr : _is_randomized_mac "06:AA:BB:CC:DD:EE" = true :=
    (h.2.1 (Or.inl (by decide))).2 ⟨by decide, by decide⟩
  exact ⟨hr, h.2.2 (Or.inl hr)⟩

/-! ## C9: cache population discipline -/

theorem setAssoc_self (l : List (String × Option String)) (k : String)
    (v : Option String) (h : lookupAssoc l k = some v) :
    setAssoc l k v = l := by
  induction l with
  | nil => simp [lookupAssoc] at h
  | cons kv rest ih =>
    obtain ⟨k0, v0⟩ := kv
    by_cases hk : k0 = k
    · simp only [lookupAssoc, if_pos hk] at h
      cases h
      simp [setAssoc, hk]
    · simp only [lookupAssoc, if_neg hk] at h
      simp [setAssoc, hk, ih h]

theorem setAssoc_forall (P : String × Option String → Prop)
    (l : List (String × Option String)) (k : String) (v : Option String)
    (hl : ∀ p ∈ l, P p) (hv : P (k, v)) :
    ∀ p ∈ setAssoc l k v, P p := by
  induction l with
  | nil =>
    intro p hp
    simp only [setAssoc, List.mem_singleton] at hp
    exact hp ▸ hv
  | cons kv rest ih =>
    obtain ⟨k0, v0⟩ := kv
    intro p hp
    by_cases hk : k0 = k
    · simp only [setAssoc, if_pos hk, List.mem_cons] at hp
      rcases hp with h | h
      · subst h
        exact hk ▸ hv
      · exact hl p (List.mem_cons_of_mem _ h)
    · simp only [setAssoc, if_neg hk, List.mem_cons] at hp
      rcases hp with h | h
      · exact hl p (h ▸ List.mem_cons_self _ _)
      · exact ih (fun q hq => hl q (List.mem_cons_of_mem _ hq)) p h

theorem online_cache_unchanged (st : ResolverState) (mac : String)
    (now d : ℚ) (http : HttpOutcome) :
    (_get_vendor_online st mac now d http).st.vendor_cache =
      st.vendor_cache := by
  cases http <;> rfl

theorem getVendorMiss_decomp (st : ResolverState) (mac : String)
    (env : VendorEnv) :
    ∃ vendor st2 ev2, st2.vendor_cache = st.vendor_cache ∧
      getVendorMiss st mac env = cacheIfTruthy mac vendor st2 ev2 := by
  cases henv : env.hasMacLookup
  · refine ⟨(_get_vendor_online st mac env.now env.netDelay env.http).vendor,
      (_get_vendor_online st mac env.now env.netDelay env.http).st,
      [] ++ (_get_vendor_online st mac env.now env.netDelay env.http).events,
      online_cache_unchanged st mac env.now env.netDelay env.http, ?_⟩
    simp only [getVendorMiss, henv, Bool.false_eq_true, if_false]
  · cases hll : env.localLookup with
    | error e =>
      refine ⟨(_get_vendor_online
          { st with vendors_updated := true, mac_lookup_init := true }
          mac env.now env.netDelay env.http).vendor,
        (_get_vendor_online
          { st with vendors_updated := true, mac_lookup_init := true }
          mac env.now env.netDelay env.http).st,
        [Event.dbAccess mac] ++ (_get_vendor_online
          { st with vendors_updated := true, mac_lookup_init := true }
          mac env.now env.netDelay env.http).events,
        online_cache_unchanged _ mac env.now env.netDelay env.http, ?_⟩
      simp only [getVendorMiss, henv, hll, if_true]
    | ok v =>
      cases v with
      | none =>
        refine ⟨(_get_vendor_online
            { st with vendors_updated := true, mac_lookup_init := true }
            mac env.now env.netDelay env.http).vendor,
          (_get_vendor_online
            { st with vendors_updated := true, mac_lookup_init := true }
            mac env.now env.netDelay env.http).st,
          [Event.dbAccess mac] ++ (_get_vendor_online
            { st with vendors_updated := true, mac_lookup_init := true }
            mac env.now env.netDelay env.http).events,
          online_cache_unchanged _ mac env.now env.netDelay env.http, ?_⟩
        simp only [getVendorMiss, henv, hll, if_true]
      | some w =>
        refine ⟨some w,
          { st with vendors_updated := true, mac_lookup_init := true },
          [Event.dbAccess mac], rfl, ?_⟩
        simp only [getVendorMiss, henv, hll, if_true]

theorem cacheIfTruthy_fst (mac : String) (v : Option String)
    (st2 : ResolverState) (ev2 : List Event) :
    (cacheIfTruthy mac v st2 ev2).1 = v := by
  unfold cacheIfTruthy
  split <;> rfl

theorem cacheIfTruthy_cache (mac : String) (v : Option String)
    (st2 : ResolverState) (ev2 : List Event) :
    (cacheIfTruthy mac v st2 ev2).2.1.vendor_cache =
      (if truthyOpt v then setAssoc st2.vendor_cache mac v
       else st2.vendor_cache) := by
  unfold cacheIfTruthy
  split <;> simp_all

/-- C9: the vendor cache is populated exactly by truthy (non-absent,
non-empty) results: a truthy resolution stores itself under the
address, any other outcome leaves the cache unchanged (so unresolved
addresses are retried later); a consulted cache entry is returned only
when non-absent (and the hit leaves state and trace untouched); and the
entries-are-non-absent invariant is preserved by every call. -/
theorem c9_cache_discipline :
    ∀ (st : ResolverState) (mac : String) (env : VendorEnv),
      (truthyOpt (_get_vendor st mac env).1 = true →
        (_get_vendor st mac env).2.1.vendor_cache =
          setAssoc st.vendor_cache mac (_get_vendor st mac env).1)
      ∧ (truthyOpt (_get_vendor st mac env).1 = false →
          (_get_vendor st mac env).2.1.vendor_cache = st.vendor_cache)
      ∧ (∀ v, lookupAssoc st.vendor_cache mac = some (some v) →
          is_macos_uuid mac = false → _is_randomized_mac mac = false →
          _get_vendor st mac env = (some v, st, []))
      ∧ ((∀ p ∈ st.vendor_cache, p.2 ≠ none) →
          ∀ p ∈ (_get_vendor st mac env).2.1.vendor_cache, p.2 ≠ none) := by
  intro st mac env
  by_cases hu : is_macos_uuid mac = true
  · have hres : _get_vendor st mac env = (none, st, []) := by
      simp [_get_vendor, hu]
    refine ⟨?_, ?_, ?_, ?_⟩
    · intro ht
      rw [hres] at ht
      simp [truthyOpt] at ht
    · intro _
      rw [hres]
    · intro w hw h1 h2
      rw [h1] at hu
      exact absurd hu (by simp)
    · intro hinv
      rw [hres]
      exact hinv
  · have hu2 : is_macos_uuid mac = false := by
      cases h : is_macos_uuid mac
      · rfl
      · exact absurd h hu
    by_cases hr : _is_randomized_mac mac = true
    · have hres : _get_vendor st mac env = (none, st, []) := by
        simp [_get_vendor, hu2, hr]
      refine ⟨?_, ?_, ?_, ?_⟩
      · intro ht
        rw [hres] at ht
        simp [truthyOpt] at ht
      · intro _
        rw [hres]
      · intro w hw h1 h2
        rw [h2] at hr
        exact absurd hr (by simp)
      · intro hinv
        rw [hres]
        exact hinv
    · have hr2 : _is_randomized_mac mac = false := by
        cases h : _is_randomized_mac mac
        · rfl
        · exact absurd h hr
      cases hl : lookupAssoc st.vendor_cache mac with
      | some vo =>
        cases vo with
        | some v =>
          have hres : _get_vendor st mac env = (some v, st, []) := by
            simp [_get_vendor, hu2, hr2, hl]
          refine ⟨?_, ?_, ?_, ?_⟩
          · intro _
            rw [hres]
            exact (setAssoc_self _ _ _ hl).symm
          · intro _
            rw [hres]
          · intro w hw _ _
            cases hw
            exact hres
          · intro hinv
            rw [hres]
            exact hinv
        | none =>
          have hres : _get_vendor st mac env = getVendorMiss st mac env := by
            simp [_get_vendor, hu2, hr2, hl]
          obtain ⟨vd, st2, ev2, hc, heq⟩ := getVendorMiss_decomp st mac env
          have hfst : (_get_vendor st mac env).1 = vd := by
            rw [hres, heq, cacheIfTruthy_fst]
          have hcache : (_get_vendor st mac env).2.1.vendor_cache =
              (if truthyOpt vd then setAssoc st.vendor_cache mac vd
               else st.vendor_cache) := by
            rw [hres, heq, cacheIfTruthy_cache, hc]
          refine ⟨?_, ?_, ?_, ?_⟩
          · intro ht
            rw [hfst] at ht
            rw [hcache, if_pos ht, hfst]
          · intro ht
            rw [hfst] at ht
            rw [hcache, if_neg (by simp [ht])]
          · intro w hw
            simp at hw
          · intro hinv p hp
            rw [hcache] at hp
            by_cases ht : truthyOpt vd = true
            · rw [if_pos ht] at hp
              refine setAssoc_forall (fun q => q.2 ≠ none) _ _ _ hinv ?_ p hp
              cases vd with
              | none => simp [truthyOpt] at ht
              | some w => simp
            · rw [if_neg ht] at hp
              exact hinv p hp
      | none =>
        have hres : _get_vendor st mac env = getVendorMiss st mac env := by
          simp [_get_vendor, hu2, hr2, hl]
        obtain ⟨vd, st2, ev2, hc, heq⟩ := getVendorMiss_decomp st mac env
        have hfst : (_get_vendor st mac env).1 = vd := by
          rw [hres, heq, cacheIfTruthy_fst]
        have hcache : (_get_vendor st mac env).2.1.vendor_cache =
            (if truthyOpt vd then setAssoc st.vendor_cache mac vd
             else st.vendor_cache) := by
          rw [hres, heq, cacheIfTruthy_cache, hc]
        refine ⟨?_, ?_, ?_, ?_⟩
        · intro ht
          rw [hfst] at ht
          rw [hcache, if_pos ht, hfst]
        · intro ht
          rw [hfst] at ht
          rw [hcache, if_neg (by simp [ht])]
        · intro w hw
          simp at hw
        · intro hinv p hp
          rw [hcache] at hp
          by_cases ht : truthyOpt vd = true
          · rw [if_pos ht] at hp
            refine setAssoc_forall (fun q => q.2 ≠ none) _ _ _ hinv ?_ p hp
            cases vd with
            | none => simp [truthyOpt] at ht
            | some w => simp
          · rw [if_neg ht] at hp
            exact hinv p hp

/-- Witness for C9: a successful lookup stores `Acme` under the address,
and a 404 online outcome leaves the cache empty. -/
theorem c9_cache_discipline_witness :
    (_get_vendor {} "AC:DE:48:00:00:01"
        ⟨true, Except.ok (some "Acme"), 0, 0, HttpOutcome.otherErr⟩).2.1.vendor_cache =
      setAssoc ({} : ResolverState).vendor_cache "AC:DE:48:00:00:01"
        (_get_vendor {} "AC:DE:48:00:00:01"
          ⟨true, Except.ok (some "Acme"), 0, 0, HttpOutcome.otherErr⟩).1 ∧
    (_get_vendor {} "AC:DE:48:00:00:01"
        ⟨false, Except.ok none, 0, 0, HttpOutcome.resp 404 ""⟩).2.1.vendor_cache =
      ({} : ResolverState).vendor_cache := by
  constructor
  · exact (c9_cache_discipline {} "AC:DE:48:00:00:01"
      ⟨true, Except.ok (some "Acme"), 0, 0, HttpOutcome.otherErr⟩).1 (by decide)
  · exact (c9_cache_discipline {} "AC:DE:48:00:00:01"
      ⟨false, Except.ok none, 0, 0, HttpOutcome.resp 404 ""⟩).2.1 (by decide)

/-! ## C7: the online lookup sends only the OUI -/

/-- Recognizer for network-request events. -/
def isNetCallEv : Event → Bool
  | Event.netCall _ => true
  | _ => false

theorem sleepEvents_no_net (st : ResolverState) (now : ℚ) :
    (onlineSleepEvents st now).filter isNetCallEv = [] := by
  unfold onlineSleepEvents
  cases st.last_api_call with
  | none => rfl
  | some t =>
    by_cases h : now - t < 1
    · simp [h, isNetCallEv]
    · simp [h]

theorem online_events_eq (st : ResolverState) (mac : String) (now d : ℚ)
    (http : HttpOutcome) :
    (_get_vendor_online st mac now d http).events =
      onlineSleepEvents st now ++
        [Event.netCall (MACVENDORS_API_URL ++ String.mk (mac.data.take 8))] := by
  cases http <;> rfl

/-- C7: every online lookup issues exactly one request, whose URL is the
service base followed by the first 8 characters of the address (the
OUI `AA:BB:CC`) — never the full address — so any two addresses that
agree on their first 8 characters produce identical requests. -/
theorem c7_oui_only :
    ∀ (st : ResolverState) (mac : String) (now d : ℚ) (http : HttpOutcome),
      ((_get_vendor_online st mac now d http).events.filter isNetCallEv =
        [Event.netCall (MACVENDORS_API_URL ++ String.mk (mac.data.take 8))])
      ∧ (∀ (st2 : ResolverState) (mac2 : String) (now2 d2 : ℚ)
            (http2 : HttpOutcome),
          mac.data.take 8 = mac2.data.take 8 →
          (_get_vendor_online st mac now d http).events.filter isNetCallEv =
            (_get_vendor_online st2 mac2 now2 d2 http2).events.filter
              isNetCallEv) := by
  intro st mac now d http
  have key : ∀ (st' : ResolverState) (mac' : String) (now' d' : ℚ)
      (http' : HttpOutcome),
      (_get_vendor_online st' mac' now' d' http').events.filter isNetCallEv =
        [Event.netCall (MACVENDORS_API_URL ++ String.mk (mac'.data.take 8))] := by
    intro st' mac' now' d' http'
    rw [online_events_eq, List.filter_append, sleepEvents_no_net]
    simp [isNetCallEv]
  refine ⟨key st mac now d http, ?_⟩
  intro st2 mac2 now2 d2 http2 h8
  rw [key, key, h8]

/-- Witness for C7: two addresses sharing the OUI `AA:BB:CC` produce the
same request. -/
theorem c7_oui_only_witness :
    (_get_vendor_online {} "AA:BB:CC:DD:EE:FF" 0 0
        HttpOutcome.timeoutErr).events.filter isNetCallEv =
      (_get_vendor_online {} "AA:BB:CC:11:22:33" 5 2
        (HttpOutcome.resp 200 "V")).events.filter isNetCallEv := by
  exact (c7_oui_only {} "AA:BB:CC:DD:EE:FF" 0 0 HttpOutcome.timeoutErr).2
    {} "AA:BB:CC:11:22:33" 5 2 (HttpOutcome.resp 200 "V") (by decide)

/-! ## C2 and C3: BLE failure accounting and recovery gating -/

theorem cacheIfTruthy_events (mac : String) (v : Option String)
    (st2 : ResolverState) (ev2 : List Event) :
    (cacheIfTruthy mac v st2 ev2).2.2 = ev2 := by
  unfold cacheIfTruthy
  split <;> rfl

theorem sleepEvents_shape (st : ResolverState) (now : ℚ) :
    ∀ e ∈ onlineSleepEvents st now, ∃ x, e = Event.sleepFor x := by
  unfold onlineSleepEvents
  cases st.last_api_call with
  | none => simp
  | some t =>
    by_cases h : now - t < 1
    · simp [h]
    · simp [h]

theorem online_events_shape (st : ResolverState) (mac : String) (now d : ℚ)
    (http : HttpOutcome) :
    ∀ e ∈ (_get_vendor_online st mac now d http).events,
      (∃ u, e = Event.netCall u) ∨ (∃ x, e = Event.sleepFor x) := by
  intro e he
  rw [online_events_eq] at he
  rcases List.mem_append.1 he with h | h
  · exact Or.inr (sleepEvents_shape st now e h)
  · rcases List.mem_singleton.1 h with rfl
    exact Or.inl ⟨_, rfl⟩

theorem getVendorMiss_events_shape (st : ResolverState) (mac : String)
    (env : VendorEnv) :
    ∀ e ∈ (getVendorMiss st mac env).2.2,
      e = Event.dbAccess mac ∨ (∃ u, e = Event.netCall u) ∨
        (∃ x, e = Event.sleepFor x) := by
  intro e he
  cases henv : env.hasMacLookup
  · simp only [getVendorMiss, henv, Bool.false_eq_true, if_false] at he
    rw [cacheIfTruthy_events] at he
    rcases List.mem_append.1 he with h | h
    · simp at h
    · exact Or.inr (online_events_shape _ mac env.now env.netDelay env.http e h)
  · cases hll : env.localLookup with
    | error ex =>
      simp only [getVendorMiss, henv, hll, if_true] at he
      rw [cacheIfTruthy_events] at he
      rcases List.mem_append.1 he with h | h
      · exact Or.inl (List.mem_singleton.1 h)
      · exact Or.inr (online_events_shape _ mac env.now env.netDelay env.http e h)
    | ok v =>
      cases v with
      | none =>
        simp only [getVendorMiss, henv, hll, if_true] at he
        rw [cacheIfTruthy_events] at he
        rcases List.mem_append.1 he with h | h
        · exact Or.inl (List.mem_singleton.1 h)
        · exact Or.inr (online_events_shape _ mac env.now env.netDelay env.http e h)
      | some w =>
        simp only [getVendorMiss, henv, hll, if_true] at he
        rw [cacheIfTruthy_events] at he
        exact Or.inl (List.mem_singleton.1 he)

theorem getVendor_events_shape (st : ResolverState) (mac : String)
    (env : VendorEnv) :
    ∀ e ∈ (_get_vendor st mac env).2.2,
      e = Event.dbAccess mac ∨ (∃ u, e = Event.netCall u) ∨
        (∃ x, e = Event.sleepFor x) := by
  intro e he
  by_cases hu : is_macos_uuid mac = true
  · simp [_get_vendor, hu] at he
  · have hu2 : is_macos_uuid mac = false := by
      cases h : is_macos_uuid mac
      · rfl
      · exact absurd h hu
    by_cases hr : _is_randomized_mac mac = true
    · simp [_get_vendor, hu2, hr] at he
    · have hr2 : _is_randomized_mac mac = false := by
        cases h : _is_randomized_mac mac
        · rfl
        · exact absurd h hr
      cases hl : lookupAssoc st.vendor_cache mac with
      | some vo =>
        cases vo with
        | some v => simp [_get_vendor, hu2, hr2, hl] at he
        | none =>
          have : (_get_vendor st mac env).2.2 = (getVendorMiss st mac env).2.2 := by
            simp [_get_vendor, hu2, hr2, hl]
          rw [this] at he
          exact getVendorMiss_events_shape st mac env e he
      | none =>
        have : (_get_vendor st mac env).2.2 = (getVendorMiss st mac env).2.2 := by
          simp [_get_vendor, hu2, hr2, hl]
        rw [this] at he
        exact getVendorMiss_events_shape st mac env e he

theorem processBle_events_shape (envs : Nat → VendorEnv) :
    ∀ (devs : List BleFound) (rst : ResolverState) (i : Nat),
      ∀ e ∈ (processBleDevices rst envs i devs).2.2,
        (∃ m, e = Event.dbAccess m) ∨ (∃ u, e = Event.netCall u) ∨
          (∃ x, e = Event.sleepFor x) := by
  intro devs
  induction devs with
  | nil =>
    intro rst i e he
    simp [processBleDevices] at he
  | cons d rest ih =>
    intro rst i e he
    simp only [processBleDevices] at he
    rcases List.mem_append.1 he with h | h
    · rcases getVendor_events_shape rst d.address (envs i) e h with h1 | h1
      · exact Or.inl ⟨_, h1⟩
      · exact Or.inr h1
    · exact ih _ _ e h

theorem reset_events (resetO : SubprocOutcome) :
    (_reset_adapter resetO).2 = [Event.resetAdapterCall] := by
  cases resetO <;> rfl

theorem recover_completed (f : Nat) (hf : ¬ f < ADAPTER_RESET_THRESHOLD)
    (rc : Int) (out err : String) (resetO : SubprocOutcome) :
    _recover_ble f (SubprocOutcome.completed rc out err) resetO =
      [Event.stopDiscoveryCall] := by
  simp [_recover_ble, hf, _try_stop_discovery]

theorem recover_failed (f : Nat) (hf : ¬ f < ADAPTER_RESET_THRESHOLD)
    (stopO : SubprocOutcome)
    (hs : stopO = SubprocOutcome.spawnFail ∨
      stopO = SubprocOutcome.timeoutExpired) (resetO : SubprocOutcome) :
    _recover_ble f stopO resetO =
      [Event.stopDiscoveryCall, Event.resetAdapterCall] := by
  rcases hs with rfl | rfl <;>
    simp [_recover_ble, hf, _try_stop_discovery, reset_events]

/-- C2: a deadline expiry or any exception from the discovery call makes
`scan_ble` return an empty list (without raising — the embedding is
total) and increments the consecutive-failure counter by exactly one;
every successful completion resets the counter to zero, whatever the
number of discovered devices (the result has one entry per discovered
device); and the hard deadline wrapped around the discovery call is
always `duration + 10`. -/
theorem c2_ble_failure_policy :
    ∀ (st : ScannerState) (duration : ℚ) (env : BleEnv),
      (env.outcome = BleDiscoverOutcome.timeoutErr →
        (scan_ble st duration env).devices = [] ∧
        (scan_ble st duration env).st.consecutive_ble_failures =
          st.consecutive_ble_failures + 1)
      ∧ (∀ msg, env.outcome = BleDiscoverOutcome.exn msg →
          (scan_ble st duration env).devices = [] ∧
          (scan_ble st duration env).st.consecutive_ble_failures =
            st.consecutive_ble_failures + 1)
      ∧ (∀ devs, env.outcome = BleDiscoverOutcome.success devs →
          (scan_ble st duration env).st.consecutive_ble_failures = 0 ∧
          (scan_ble st duration env).devices.length = devs.length)
      ∧ Event.discoverCall (duration + 10) ∈ (scan_ble st duration env).events := by
  intro st duration env
  refine ⟨?_, ?_, ?_, ?_⟩
  · intro h
    simp [scan_ble, h]
  · intro msg h
    simp [scan_ble, h]
  · intro devs h
    constructor
    · simp [scan_ble, h]
    · simp [scan_ble, h, processBleDevices_length]
  · cases h : env.outcome <;> simp [scan_ble, h]

/-- Witness for C2: a timed-out cycle increments the counter from 0 to 1
and returns no devices; a successful empty cycle resets a counter of 2
to zero. -/
theorem c2_ble_failure_policy_witness :
    (scan_ble {} 5
        ⟨BleDiscoverOutcome.timeoutErr, SubprocOutcome.spawnFail,
         SubprocOutcome.spawnFail,
         fun _ => ⟨false, Except.ok none, 0, 0, HttpOutcome.otherErr⟩⟩).devices = [] ∧
    (scan_ble {} 5
        ⟨BleDiscoverOutcome.timeoutErr, SubprocOutcome.spawnFail,
         SubprocOutcome.spawnFail,
         fun _ => ⟨false, Except.ok none, 0, 0, HttpOutcome.otherErr⟩⟩).st.consecutive_ble_failures = 1 ∧
    (scan_ble { consecutive_ble_failures := 2 } 5
        ⟨BleDiscoverOutcome.success [], SubprocOutcome.spawnFail,
         SubprocOutcome.spawnFail,
         fun _ => ⟨false, Except.ok none, 0, 0, HttpOutcome.otherErr⟩⟩).st.consecutive_ble_failures = 0 := by
  refine ⟨?_, ?_, ?_⟩
  · exact ((c2_ble_failure_policy {} 5 _).1 rfl).1
  · exact ((c2_ble_failure_policy {} 5 _).1 rfl).2
  · exact ((c2_ble_failure_policy { consecutive_ble_failures := 2 } 5 _).2.2.1 [] rfl).1

/-- C3: once the failure counter has reached the threshold 3, the next
`scan_ble` call triggers recovery before scanning — the very first
emitted event is the soft-clear (stop-discovery) call — and when the
soft clear reports success (its subprocess completed) no hard-reset
call occurs in that cycle; below the threshold neither recovery call is
emitted. -/
theorem c3_recovery_transition :
    ∀ (st : ScannerState) (duration : ℚ) (env : BleEnv),
      (st.consecutive_ble_failures ≥ 3 →
        (scan_ble st duration env).events.head? =
          some Event.stopDiscoveryCall
        ∧ (∀ rc out err, env.stopO = SubprocOutcome.completed rc out err →
            Event.resetAdapterCall ∉ (scan_ble st duration env).events))
      ∧ (st.consecutive_ble_failures < 3 →
          Event.stopDiscoveryCall ∉ (scan_ble st duration env).events
          ∧ Event.resetAdapterCall ∉ (scan_ble st duration env).events) := by
  intro st duration env
  constructor
  · intro hge
    have hnlt : ¬ st.consecutive_ble_failures < ADAPTER_RESET_THRESHOLD := by
      simp only [ADAPTER_RESET_THRESHOLD]
      omega
    have hrec : ∃ tail, _recover_ble st.consecutive_ble_failures env.stopO
        env.resetO = Event.stopDiscoveryCall :: tail := by
      cases hstop : env.stopO with
      | completed rc out err =>
        exact ⟨[], recover_completed _ hnlt rc out err env.resetO⟩
      | spawnFail =>
        exact ⟨[Event.resetAdapterCall],
          recover_failed _ hnlt _ (Or.inl rfl) env.resetO⟩
      | timeoutExpired =>
        exact ⟨[Event.resetAdapterCall],
          recover_failed _ hnlt _ (Or.inr rfl) env.resetO⟩
    obtain ⟨tail, htail⟩ := hrec
    constructor
    · cases h : env.outcome <;>
        simp [scan_ble, h, hge, ADAPTER_RESET_THRESHOLD, htail]
    · intro rc out err hstop
      have hrecov := recover_completed st.consecutive_ble_failures hnlt
        rc out err env.resetO
      intro hmem
      cases h : env.outcome with
      | success devs =>
        simp only [scan_ble, h, hge, ADAPTER_RESET_THRESHOLD, ge_iff_le,
          if_pos (show 3 ≤ st.consecutive_ble_failures from hge),
          hstop, hrecov] at hmem
        rcases List.mem_append.1 hmem with h1 | h1
        · rcases List.mem_append.1 h1 with h2 | h2
          · simp at h2
          · simp at h2
        · rcases processBle_events_shape env.vendorEnvs devs st.resolver 0 _ h1 with
            ⟨m, hm⟩ | ⟨u, hm⟩ | ⟨x, hm⟩ <;> simp at hm
      | timeoutErr =>
        simp only [scan_ble, h, hge, ADAPTER_RESET_THRESHOLD, ge_iff_le,
          if_pos (show 3 ≤ st.consecutive_ble_failures from hge),
          hstop, hrecov] at hmem
        rcases List.mem_append.1 hmem with h1 | h1 <;> simp at h1
      | exn msg =>
        simp only [scan_ble, h, hge, ADAPTER_RESET_THRESHOLD, ge_iff_le,
          if_pos (show 3 ≤ st.consecutive_ble_failures from hge),
          hstop, hrecov] at hmem
        rcases List.mem_append.1 hmem with h1 | h1 <;> simp at h1
  · intro hlt
    have hnge : ¬ st.consecutive_ble_failures ≥ ADAPTER_RESET_THRESHOLD := by
      simp only [ADAPTER_RESET_THRESHOLD]
      omega
    constructor
    · intro hmem
      cases h : env.outcome with
      | success devs =>
        simp only [scan_ble, h, if_neg hnge, List.nil_append] at hmem
        rcases List.mem_append.1 hmem with h1 | h1
        · simp at h1
        · rcases processBle_events_shape env.vendorEnvs devs st.resolver 0 _ h1 with
            ⟨m, hm⟩ | ⟨u, hm⟩ | ⟨x, hm⟩ <;> simp at hm
      | timeoutErr =>
        simp only [scan_ble, h, if_neg hnge, List.nil_append] at hmem
        simp at hmem
      | exn msg =>
        simp only [scan_ble, h, if_neg hnge, List.nil_append] at hmem
        simp at hmem
    · intro hmem
      cases h : env.outcome with
      | success devs =>
        simp only [scan_ble, h, if_neg hnge, List.nil_append] at hmem
        rcases List.mem_append.1 hmem with h1 | h1
        · simp at h1
        · rcases processBle_events_shape env.vendorEnvs devs st.resolver 0 _ h1 with
            ⟨m, hm⟩ | ⟨u, hm⟩ | ⟨x, hm⟩ <;> simp at hm
      | timeoutErr =>
        simp only [scan_ble, h, if_neg hnge, List.nil_append] at hmem
        simp at hmem
      | exn msg =>
        simp only [scan_ble, h, if_neg hnge, List.nil_append] at hmem
        simp at hmem

/-- Witness for C3: at exactly 3 consecutive failures the first event of
the next scan is the soft-clear call, a completed soft clear suppresses
the reset, and at 2 failures neither recovery call appears. -/
theorem c3_recovery_transition_witness :
    (scan_ble { consecutive_ble_failures := 3 } 5
        ⟨BleDiscoverOutcome.timeoutErr, SubprocOutcome.completed 1 "" "",
         SubprocOutcome.completed 0 "" "",
         fun _ => ⟨false, Except.ok none, 0, 0, HttpOutcome.otherErr⟩⟩).events.head? =
      some Event.stopDiscoveryCall ∧
    Event.resetAdapterCall ∉
      (scan_ble { consecutive_ble_failures := 3 } 5
        ⟨BleDiscoverOutcome.timeoutErr, SubprocOutcome.completed 1 "" "",
         SubprocOutcome.completed 0 "" "",
         fun _ => ⟨false, Except.ok none, 0, 0, HttpOutcome.otherErr⟩⟩).events ∧
    Event.stopDiscoveryCall ∉
      (scan_ble { consecutive_ble_failures := 2 } 5
        ⟨BleDiscoverOutcome.timeoutErr, SubprocOutcome.completed 1 "" "",
         SubprocOutcome.completed 0 "" "",
         fun _ => ⟨false, Except.ok none, 0, 0, HttpOutcome.otherErr⟩⟩).events := by
  refine ⟨?_, ?_, ?_⟩
  · exact ((c3_recovery_transition { consecutive_ble_failures := 3 } 5 _).1
      (by decide)).1
  · exact ((c3_recovery_transition { consecutive_ble_failures := 3 } 5 _).1
      (by decide)).2 1 "" "" rfl
  · exact ((c3_recovery_transition { consecutive_ble_failures := 2 } 5 _).2
      (by decide)).1

/-! ## C6: transport errors are contained -/

theorem processClassic_none (env : ClassicEnv) :
    ∀ (lines : List (List Char)) (rst : ResolverState) (i : Nat),
      (∀ line ∈ lines,
        ((pyStrip line).isEmpty || "Inquiring".data.isPrefixOf line) = true ∨
          findInqMatch line = none) →
      processClassicLines rst env i lines = ([], rst, []) := by
  intro lines
  induction lines with
  | nil => intro rst i _; rfl
  | cons line rest ih =>
    intro rst i hall
    by_cases hc : ((pyStrip line).isEmpty ||
        "Inquiring".data.isPrefixOf line) = true
    · simp only [processClassicLines, hc, if_true]
      exact ih rst i (fun l hl => hall l (List.mem_cons_of_mem _ hl))
    · rcases hall line (List.mem_cons_self _ _) with h | h
      · exact absurd h hc
      · simp only [processClassicLines, hc, if_false, h]
        exact ih rst i (fun l hl => hall l (List.mem_cons_of_mem _ hl))

/-- C6: `scan` is total in the embedding (each transport catches its own
errors) and always returns the merge of the two transport results; a
missing tool binary, a subprocess timeout or a non-zero exit makes the
classic transport contribute zero devices; a BLE deadline expiry or
exception makes `scan` return exactly the classic devices; classic
output with no parseable device lines yields zero classic devices; and
with zero devices on both transports `scan` returns the empty list. -/
theorem c6_error_containment :
    ∀ (st : ScannerState) (duration : ℚ) (env : ScanEnv),
      ((scan st duration env).1 =
        scanMerge (scan_ble st duration env.ble).devices
          (scan_classic (scan_ble st duration env.ble).st env.classic).1)
      ∧ (env.classic.proc = SubprocOutcome.spawnFail ∨
          env.classic.proc = SubprocOutcome.timeoutExpired →
          ∀ st2, (scan_classic st2 env.classic).1 = [])
      ∧ (∀ rc stdout stderrS,
          env.classic.proc = SubprocOutcome.completed rc stdout stderrS →
          rc ≠ 0 → ∀ st2, (scan_classic st2 env.classic).1 = [])
      ∧ (env.ble.outcome = BleDiscoverOutcome.timeoutErr ∨
          (∃ m, env.ble.outcome = BleDiscoverOutcome.exn m) →
          (scan st duration env).1 =
            (scan_classic (scan_ble st duration env.ble).st env.classic).1)
      ∧ (∀ rc stdout stderrS,
          env.classic.proc = SubprocOutcome.completed rc stdout stderrS →
          (∀ line ∈ pySplit (Char.ofNat 10) (pyStrip stdout.data),
            ((pyStrip line).isEmpty || "Inquiring".data.isPrefixOf line) = true ∨
              findInqMatch line = none) →
          ∀ st2, (scan_classic st2 env.classic).1 = [])
      ∧ (env.ble.outcome = BleDiscoverOutcome.success [] →
          (scan_classic (scan_ble st duration env.ble).st env.classic).1 = [] →
          (scan st duration env).1 = []) := by
  intro st duration env
  refine ⟨rfl, ?_, ?_, ?_, ?_, ?_⟩
  · rintro (h | h) st2 <;> simp [scan_classic, h]
  · intro rc stdout stderrS h hrc st2
    simp [scan_classic, h, hrc]
  · intro hfail
    have hble : (scan_ble st duration env.ble).devices = [] := by
      rcases hfail with h | ⟨m, h⟩ <;> simp [scan_ble, h]
    show scanMerge (scan_ble st duration env.ble).devices _ = _
    rw [hble]
    rw [scanMerge]
    simp [mergeClassicLoop_eq_filter]
  · intro rc stdout stderrS h hlines st2
    by_cases hrc : rc = 0
    · subst hrc
      simp only [scan_classic, h, ne_eq, not_true_eq_false, if_false,
        reduceIte]
      rw [processClassic_none env.classic _ st2.resolver 0 hlines]
    · simp [scan_classic, h, hrc]
  · intro hsucc hclassic
    have hble : (scan_ble st duration env.ble).devices = [] := by
      simp [scan_ble, hsucc, processBleDevices]
    show scanMerge (scan_ble st duration env.ble).devices _ = _
    rw [hble, hclassic]
    rfl

/-- Witness for C6: a BLE cycle that finds nothing plus an `hcitool` run
that prints only the `Inquiring ...` header produce an empty, raise-free
scan; and a missing `hcitool` binary yields zero classic devices. -/
theorem c6_error_containment_witness :
    (scan {} 5
      ⟨⟨BleDiscoverOutcome.success [], SubprocOutcome.spawnFail,
        SubprocOutcome.spawnFail,
        fun _ => ⟨false, Except.ok none, 0, 0, HttpOutcome.otherErr⟩⟩,
       ⟨SubprocOutcome.completed 0 "Inquiring ..." "",
        fun _ => SubprocOutcome.spawnFail,
        fun _ => ⟨false, Except.ok none, 0, 0, HttpOutcome.otherErr⟩⟩⟩).1 = [] ∧
    (scan_classic {}
      ⟨SubprocOutcome.spawnFail, fun _ => SubprocOutcome.spawnFail,
       fun _ => ⟨false, Except.ok none, 0, 0, HttpOutcome.otherErr⟩⟩).1 = [] := by
  constructor
  · refine (c6_error_containment {} 5 _).2.2.2.2.2 rfl ?_
    refine (c6_error_containment {} 5 _).2.2.2.2.1 0 "Inquiring ..." "" rfl ?_ _
    decide
  · exact (c6_error_containment {} 5
      ⟨⟨BleDiscoverOutcome.success [], SubprocOutcome.spawnFail,
        SubprocOutcome.spawnFail,
        fun _ => ⟨false, Except.ok none, 0, 0, HttpOutcome.otherErr⟩⟩,
       ⟨SubprocOutcome.spawnFail, fun _ => SubprocOutcome.spawnFail,
        fun _ => ⟨false, Except.ok none, 0, 0, HttpOutcome.otherErr⟩⟩⟩).2.1
      (Or.inl rfl) {}

/-! ## C8: online rate limiting -/

theorem onlineSleep_nonneg (st : ResolverState) (now : ℚ) :
    0 ≤ onlineSleep st now := by
  unfold onlineSleep
  cases hl : st.last_api_call with
  | none => exact le_refl 0
  | some t =>
    show 0 ≤ if now - t < 1 then 1 - (now - t) else 0
    by_cases h : now - t < 1
    · rw [if_pos h]
      linarith
    · rw [if_neg h]

theorem online_endTime (st : ResolverState) (mac : String) (now d : ℚ)
    (http : HttpOutcome) :
    (_get_vendor_online st mac now d http).endTime =
      now + onlineSleep st now + d := by
  cases http <;> rfl

theorem online_resp_last (st : ResolverState) (mac : String) (now d : ℚ)
    (code : Nat) (body : String) :
    (_get_vendor_online st mac now d
        (HttpOutcome.resp code body)).st.last_api_call =
      some (now + onlineSleep st now + d) := rfl

theorem sleep_lower (st : ResolverState) (now t : ℚ)
    (h : st.last_api_call = some t) :
    t + 1 ≤ now + onlineSleep st now := by
  unfold onlineSleep
  rw [h]
  show t + 1 ≤ now + (if now - t < 1 then 1 - (now - t) else 0)
  by_cases hlt : now - t < 1
  · rw [if_pos hlt]
    linarith
  · rw [if_neg hlt]
    linarith

theorem runTrace_resp_ge :
    ∀ (steps : List LookupStep) (st : ResolverState) (now t : ℚ),
      (∀ s ∈ steps, 0 ≤ s.gap ∧ 0 ≤ s.netDelay ∧
        ∃ code body, s.http = HttpOutcome.resp code body) →
      st.last_api_call = some t → t ≤ now →
      t + steps.length ≤ (runOnlineTrace st now steps).2 := by
  intro steps
  induction steps with
  | nil =>
    intro st now t _ _ hle
    have hrun : (runOnlineTrace st now []).2 = now := rfl
    rw [hrun]
    simp only [List.length_nil, Nat.cast_zero]
    linarith
  | cons s rest ih =>
    intro st now t hall hlast hle
    obtain ⟨hg, hd, code, body, hhttp⟩ := hall s (List.mem_cons_self s rest)
    simp only [runOnlineTrace]
    have hend := online_endTime st s.mac (now + s.gap) s.netDelay s.http
    have hreq : t + 1 ≤ now + s.gap + onlineSleep st (now + s.gap) :=
      sleep_lower st (now + s.gap) t hlast
    have hend_ge : t + 1 ≤ (_get_vendor_online st s.mac (now + s.gap)
        s.netDelay s.http).endTime := by
      rw [hend]
      linarith
    have hlast2 : (_get_vendor_online st s.mac (now + s.gap) s.netDelay
        s.http).st.last_api_call =
        some ((_get_vendor_online st s.mac (now + s.gap) s.netDelay
          s.http).endTime) := by
      rw [hhttp, online_resp_last, online_endTime]
    have hrec := ih (_get_vendor_online st s.mac (now + s.gap) s.netDelay
        s.http).st
      (_get_vendor_online st s.mac (now + s.gap) s.netDelay s.http).endTime
      (_get_vendor_online st s.mac (now + s.gap) s.netDelay s.http).endTime
      (fun q hq => hall q (List.mem_cons_of_mem s hq)) hlast2 (le_refl _)
    have hlen : ((s :: rest).length : ℚ) = (rest.length : ℚ) + 1 := by
      push_cast [List.length_cons]
      ring
    rw [hlen]
    linarith

/-- Counterexample to C8 as stated: two consecutive online lookups, both
failing immediately with a transport error (zero network delay, no idle
gap), finish at the same instant they started — total elapsed wall time
0, not at least N−1 = 1 second — because `_last_api_call` is only
recorded when an HTTP response arrives, so failed lookups never arm the
throttle. -/
theorem c8_rate_limit_counterexample :
    (runOnlineTrace {} 0
      [⟨0, "AC:11:22:33:44:55", 0, HttpOutcome.otherErr⟩,
       ⟨0, "AC:11:22:33:44:55", 0, HttpOutcome.otherErr⟩]).2 - 0 = 0 ∧
    ¬ ((2 : ℚ) - 1 ≤ (runOnlineTrace {} 0
      [⟨0, "AC:11:22:33:44:55", 0, HttpOutcome.otherErr⟩,
       ⟨0, "AC:11:22:33:44:55", 0, HttpOutcome.otherErr⟩]).2 - 0) := by
  have hst : ∀ (m : String) (x d : ℚ),
      (_get_vendor_online {} m x d HttpOutcome.otherErr).st =
        ({} : ResolverState) := fun _ _ _ => rfl
  have hsleep : ∀ x : ℚ, onlineSleep {} x = 0 := fun _ => rfl
  have hend : ∀ (m : String) (x d : ℚ),
      (_get_vendor_online {} m x d HttpOutcome.otherErr).endTime =
        x + 0 + d := by
    intro m x d
    rw [online_endTime, hsleep]
  have hrun : (runOnlineTrace {} 0
      [⟨0, "AC:11:22:33:44:55", 0, HttpOutcome.otherErr⟩,
       ⟨0, "AC:11:22:33:44:55", 0, HttpOutcome.otherErr⟩]).2 = 0 := by
    simp only [runOnlineTrace, hst, hend]
    norm_num
  rw [hrun]
  norm_num

/-- C8 (amended): the throttle sleeps exactly the remainder of the
second whenever less than one second has elapsed since the recorded
last online call; and across N consecutive online lookups **each of
which receives an HTTP response**, the finish time is at least the
start time plus N−1 seconds.  (Lookups failing before any response do
not update the shared timestamp, which is what the counterexample
exploits.) -/
theorem c8_rate_limit_amended :
    ∀ (st : ResolverState) (now : ℚ) (steps : List LookupStep),
      ((∀ s ∈ steps, 0 ≤ s.gap ∧ 0 ≤ s.netDelay ∧
          ∃ code body, s.http = HttpOutcome.resp code body) →
        now + steps.length - 1 ≤ (runOnlineTrace st now steps).2)
      ∧ (∀ (mac : String) (d : ℚ) (http : HttpOutcome) (t : ℚ),
          st.last_api_call = some t → now - t < 1 →
          Event.sleepFor (1 - (now - t)) ∈
            (_get_vendor_online st mac now d http).events) := by
  intro st now steps
  constructor
  · intro hall
    cases steps with
    | nil =>
      have hrun : (runOnlineTrace st now []).2 = now := rfl
      rw [hrun]
      simp only [List.length_nil, Nat.cast_zero]
      linarith
    | cons s rest =>
      obtain ⟨hg, hd, code, body, hhttp⟩ := hall s (List.mem_cons_self s rest)
      simp only [runOnlineTrace]
      have hend := online_endTime st s.mac (now + s.gap) s.netDelay s.http
      have hsleep := onlineSleep_nonneg st (now + s.gap)
      have hend_ge : now ≤ (_get_vendor_online st s.mac (now + s.gap)
          s.netDelay s.http).endTime := by
        rw [hend]
        linarith
      have hlast2 : (_get_vendor_online st s.mac (now + s.gap) s.netDelay
          s.http).st.last_api_call =
          some ((_get_vendor_online st s.mac (now + s.gap) s.netDelay
            s.http).endTime) := by
        rw [hhttp, online_resp_last, online_endTime]
      have hrec := runTrace_resp_ge rest
        (_get_vendor_online st s.mac (now + s.gap) s.netDelay s.http).st
        (_get_vendor_online st s.mac (now + s.gap) s.netDelay s.http).endTime
        (_get_vendor_online st s.mac (now + s.gap) s.netDelay s.http).endTime
        (fun q hq => hall q (List.mem_cons_of_mem s hq)) hlast2 (le_refl _)
      have hlen : ((s :: rest).length : ℚ) = (rest.length : ℚ) + 1 := by
        push_cast [List.length_cons]
        ring
      rw [hlen]
      linarith
  · intro mac d http t hlast hlt
    rw [online_events_eq]
    refine List.mem_append.2 (Or.inl ?_)
    simp [onlineSleepEvents, hlast, hlt]

/-- Witness for the amended C8: two back-to-back responding lookups end
at least one second after they start, and a lookup half a second after
the previous response sleeps exactly half a second. -/
theorem c8_rate_limit_amended_witness :
    (0 : ℚ) + (([⟨0, "AC:11:22:33:44:55", 0, HttpOutcome.resp 200 "Acme"⟩,
        ⟨0, "AC:11:22:33:44:55", 0, HttpOutcome.resp 200 "Acme"⟩] :
          List LookupStep).length : ℚ) - 1 ≤
      (runOnlineTrace {} 0
        [⟨0, "AC:11:22:33:44:55", 0, HttpOutcome.resp 200 "Acme"⟩,
         ⟨0, "AC:11:22:33:44:55", 0, HttpOutcome.resp 200 "Acme"⟩]).2 ∧
    Event.sleepFor (1 - ((1 : ℚ) / 2 - 0)) ∈
      (_get_vendor_online { last_api_call := some 0 } "AC:11:22:33:44:55"
        ((1 : ℚ) / 2) 0 HttpOutcome.timeoutErr).events := by
  constructor
  · refine (c8_rate_limit_amended {} 0 _).1 ?_
    intro q hq
    rcases List.mem_cons.1 hq with rfl | hq2
    · exact ⟨le_refl 0, le_refl 0, 200, "Acme", rfl⟩
    · rcases List.mem_cons.1 hq2 with rfl | hq3
      · exact ⟨le_refl 0, le_refl 0, 200, "Acme", rfl⟩
      · simp at hq3
  · exact (c8_rate_limit_amended { last_api_call := some 0 }
      ((1 : ℚ) / 2) []).2 "AC:11:22:33:44:55" 0 HttpOutcome.timeoutErr 0 rfl
      (by norm_num)

end Bluehood
